import Mathlib

/-!
Shallow embedding of the data-access layer in app/crud.py: entity records,
an in-memory store, and the query / mutation / deletion operations that the
verified properties range over.  SQL joins are modelled as list operations
with SQL null semantics (a comparison against a missing row is false), and
raised HTTP errors are modelled with an Except result.
-/

namespace Gestione

/-- Calendar date (year, month, day); stands in for the datetime values that
the code stores in Report.date and compares with parsed bounds. -/
structure Date where
  year : Nat
  month : Nat
  day : Nat
deriving DecidableEq, Repr

/-- Inclusive comparison of dates, lexicographic on (year, month, day). -/
def dateLe (a b : Date) : Bool :=
  a.year < b.year ||
    (a.year == b.year &&
      (a.month < b.month || (a.month == b.month && a.day ≤ b.day)))

/-- Failures a call can surface: an HTTPException with status code and
detail message, or a Python runtime error raised before any HTTP response
(TypeError and ValueError from strptime, AttributeError from a field access
on None). -/
inductive Failure where
  | http : Nat → String → Failure
  | typeError : Failure
  | valueError : Failure
  | attributeError : Failure
deriving DecidableEq, Repr

/-- Modelled from the spec (section 3, models.py is not part of the sources):
Client row. -/
structure Client where
  id : Nat
  name : String
  address : String
  city : String
  province : String
  cap : String
  email : String
  phone_number : String
  contact : String
  date_created : Date
deriving DecidableEq, Repr

/-- Modelled from the spec (section 3): Plant row, owned by a Client. -/
structure Plant where
  id : Nat
  name : String
  address : String
  city : String
  province : String
  cap : String
  email : String
  phone_number : String
  contact : String
  client_id : Nat
  date_created : Date
deriving DecidableEq, Repr

/-- Modelled from the spec (section 3): Machine row, owned by a Plant. -/
structure Machine where
  id : Nat
  name : String
  code : String
  brand : String
  model : String
  serial_number : String
  production_year : Nat
  cost_center : String
  description : String
  robotic_island : Bool
  plant_id : Nat
  date_created : Date
deriving DecidableEq, Repr

/-- Modelled from the spec (section 3): Commission row, owned by a Client. -/
structure Commission where
  id : Nat
  code : String
  description : String
  status : String
  client_id : Nat
  date_created : Date
deriving DecidableEq, Repr

/-- Modelled from the spec (section 3): User row. -/
structure User where
  id : Nat
  first_name : String
  last_name : String
  email : String
  phone_number : String
  username : String
  role : String
  temp_password : String
  password : String
deriving DecidableEq, Repr

/-- Modelled from the spec (section 3): Report row.  The discriminator
field type is "commission" or "machine" and work_id is the polymorphic
reference; both work_id and operator_id are required (non-nullable). -/
structure Report where
  id : Nat
  date : Date
  date_created : Date
  intervention_duration : String
  intervention_type : String
  intervention_location : String
  description : String
  supervisor : String
  notes : String
  trip_kms : String
  cost : String
  type : String
  work_id : Nat
  operator_id : Nat
deriving DecidableEq, Repr

/-- Payload of schemas.ReportCreate as consumed by create_report and
edit_report. -/
structure ReportCreate where
  type : String
  date : Date
  intervention_duration : String
  intervention_type : String
  intervention_location : String
  work_id : Nat
  supervisor : String
  description : String
  notes : String
  trip_kms : String
  cost : String
deriving DecidableEq, Repr

/-- The relational store the session operates on. -/
structure DB where
  clients : List Client
  plants : List Plant
  machines : List Machine
  commissions : List Commission
  users : List User
  reports : List Report
deriving DecidableEq, Repr

/-! ### List machinery for joins, ordering and month formatting -/

/-- SQL inner join: one output row per pair satisfying the condition. -/
def innerJoin (xs : List α) (ys : List β) (p : α → β → Bool) : List (α × β) :=
  xs.flatMap fun x => (ys.filter fun y => p x y).map fun y => (x, y)

/-- SQL left outer join: rows with no partner survive with a null partner. -/
def leftJoin (xs : List α) (ys : List β) (p : α → β → Bool) :
    List (α × Option β) :=
  xs.flatMap fun x =>
    let ms := ys.filter fun y => p x y
    if ms.isEmpty then [(x, none)] else ms.map fun y => (x, some y)

/-- Condition evaluated against a possibly null joined row: SQL three-valued
logic makes any comparison with null not-true. -/
def optTest (o : Option α) (p : α → Bool) : Bool :=
  match o with
  | some a => p a
  | none => false

/-- Replaces the first list element satisfying the test, leaving the rest
untouched (session mutation of the single row returned by first). -/
def updateFirst (p : α → Bool) (f : α → α) : List α → List α
  | [] => []
  | x :: xs => if p x then f x :: xs else x :: updateFirst p f xs

/-- Descending-by-date insertion used to model order_by(Report.date.desc()). -/
def insertByDateDesc (key : α → Date) (x : α) : List α → List α
  | [] => [x]
  | y :: ys =>
      if dateLe (key y) (key x) then x :: y :: ys
      else y :: insertByDateDesc key x ys

/-- Sort a result set by date, newest first. -/
def sortByDateDesc (key : α → Date) : List α → List α
  | [] => []
  | x :: xs => insertByDateDesc key x (sortByDateDesc key xs)

/-- Zero-pads a number to two digits, as strftime %m does. -/
def pad2 (n : Nat) : String :=
  if n < 10 then "0" ++ toString n else toString n

/-- Zero-pads a year to four digits, as strftime %Y does. -/
def pad4 (n : Nat) : String :=
  if n < 10 then "000" ++ toString n
  else if n < 100 then "00" ++ toString n
  else if n < 1000 then "0" ++ toString n
  else toString n

/-- Renders a date with the format string percent-m slash percent-Y. -/
def fmtMonth (d : Date) : String :=
  pad2 d.month ++ "/" ++ pad4 d.year

/-- Insertion of a string into a sorted duplicate-free list, skipping
the element when already present. -/
def insertStr (x : String) : List String → List String
  | [] => [x]
  | y :: ys =>
      if x = y then y :: ys
      else if x < y then x :: y :: ys
      else y :: insertStr x ys

/-- Implementation of the Python expression sorted(set(l)) for strings:
distinct elements in ascending lexicographic string order. -/
def sortedDedup (l : List String) : List String :=
  l.foldr insertStr []

/-! ### Date parsing (datetime.strptime with format percent-Y dash
percent-m dash percent-d) -/

/-- Tests that a component is a non-empty digit string. -/
def isDigits (s : String) : Bool :=
  s.length > 0 && s.toList.all Char.isDigit

/-- Number of days of a month, with the Gregorian leap rule, as the
datetime module validates day components. -/
def daysInMonth (y m : Nat) : Nat :=
  if m == 2 then
    if (y % 4 == 0 && y % 100 != 0) || y % 400 == 0 then 29 else 28
  else if m == 4 || m == 6 || m == 9 || m == 11 then 30
  else 31

/-- Parses a string of shape YYYY-MM-DD into a date; none on any
malformed input (ValueError in the code). -/
def parseYMD (s : String) : Option Date :=
  match s.splitOn "-" with
  | [ys, ms, ds] =>
      if isDigits ys && isDigits ms && isDigits ds
          && ys.length ≤ 4 && ms.length ≤ 2 && ds.length ≤ 2 then
        let y := (ys.toNat?).getD 0
        let m := (ms.toNat?).getD 0
        let d := (ds.toNat?).getD 0
        if 1 ≤ y && 1 ≤ m && m ≤ 12 && 1 ≤ d && d ≤ daysInMonth y m then
          some ⟨y, m, d⟩
        else none
      else none
  | _ => none

/-- Behaviour of datetime.datetime.strptime on an optional string argument:
None raises TypeError, a malformed string raises ValueError. -/
def strptimeYMD (s : Option String) : Except Failure Date :=
  match s with
  | none => .error .typeError
  | some str =>
      match parseYMD str with
      | some d => .ok d
      | none => .error .valueError

/-! ### Query layer -/

/-- Python truthiness of an optional integer argument, as tested by the
statement if user_id: in the code — None and 0 are both falsy. -/
def truthy (o : Option Nat) : Bool :=
  match o with
  | some n => n != 0
  | none => false

/-- Output row of get_reports: the Report together with the joined
(possibly null) Commission, Machine and Plant rows and the joined User and
Client rows. -/
structure JoinedReport where
  report : Report
  commission : Option Commission
  machine : Option Machine
  user : User
  plant : Option Plant
  client : Client
deriving DecidableEq, Repr

/-- Embedding of crud.get_reports: Report outer-joined to Commission on
(type == "commission" and work_id == Commission.id), outer-joined to
Machine on (type == "machine" and work_id == Machine.id), inner-joined to
User on operator_id, outer-joined to Plant on (type == "machine" and
Machine.plant_id == Plant.id), inner-joined to Client on the disjunction
(Commission.client_id == Client.id or (Plant.client_id == Client.id and
type == "machine")); optional operator filter applied when user_id is
truthy; ordered by Report.date descending. -/
def get_reports (db : DB) (user_id : Option Nat) : List JoinedReport :=
  let s1 := leftJoin db.reports db.commissions
    (fun r c => r.type == "commission" && r.work_id == c.id)
  let s2 := leftJoin s1 db.machines
    (fun rc m => rc.1.type == "machine" && rc.1.work_id == m.id)
  let s3 := innerJoin s2 db.users
    (fun rcm u => rcm.1.1.operator_id == u.id)
  let s4 := leftJoin s3 db.plants
    (fun t p => t.1.1.1.type == "machine"
      && optTest t.1.2 (fun m => m.plant_id == p.id))
  let s5 := innerJoin s4 db.clients
    (fun t cl => optTest t.1.1.1.2 (fun c => c.client_id == cl.id)
      || (optTest t.2 (fun p => p.client_id == cl.id)
          && t.1.1.1.1.type == "machine"))
  let rows := s5.map fun t =>
    { report := t.1.1.1.1.1, commission := t.1.1.1.1.2,
      machine := t.1.1.1.2, user := t.1.1.2, plant := t.1.2,
      client := t.2 : JoinedReport }
  let rows :=
    if truthy user_id then
      rows.filter fun jr => jr.report.operator_id == user_id.getD 0
    else rows
  sortByDateDesc (fun jr => jr.report.date) rows

/-- Embedding of crud.get_months: select Report.date with optional
truthy operator and work filters, group and order by date, then format
each date as MM/YYYY and return sorted(set(...)). -/
def get_months (db : DB) (user_id work_id : Option Nat) : List String :=
  let q := db.reports
  let q :=
    if truthy user_id then
      q.filter fun r => r.operator_id == user_id.getD 0
    else q
  let q :=
    if truthy work_id then
      q.filter fun r => r.work_id == work_id.getD 0
    else q
  let dates := (q.map fun r => r.date).dedup
  sortedDedup (dates.map fmtMonth)

/-- Output row of get_reports_in_interval: the Report plus the selected
columns of the inner-joined Commission, Client and User rows. -/
structure IntervalRow where
  report : Report
  commission_description : String
  commission_code : String
  client_name : String
  first_name : String
  last_name : String
deriving DecidableEq, Repr

/-- Base query of get_reports_in_interval before any filter: Report
inner-joined to Commission on work_id == Commission.id (with no condition
on the type discriminator), to Client on Commission.client_id, and to User
on operator_id. -/
def intervalBase (db : DB) : List IntervalRow :=
  (innerJoin (innerJoin (innerJoin db.reports db.commissions
        (fun r c => r.work_id == c.id)) db.clients
      (fun rc cl => rc.2.client_id == cl.id)) db.users
    (fun t u => t.1.1.operator_id == u.id)).map fun t =>
      { report := t.1.1.1, commission_description := t.1.1.2.description,
        commission_code := t.1.1.2.code, client_name := t.1.2.name,
        first_name := t.2.first_name, last_name := t.2.last_name }

/-- Date-range filtering of get_reports_in_interval: when both bounds
differ from the empty string both are parsed (start first) and an
inclusive closed range is applied; otherwise each bound differing from the
empty string is parsed and applied on its own.  A None bound reaching
strptime raises TypeError. -/
def intervalDateFilter (start_date end_date : Option String)
    (rows : List IntervalRow) : Except Failure (List IntervalRow) :=
  if start_date != some "" && end_date != some "" then
    match strptimeYMD start_date with
    | .error err => .error err
    | .ok ds =>
        match strptimeYMD end_date with
        | .error err => .error err
        | .ok de =>
            .ok (rows.filter fun row =>
              dateLe ds row.report.date && dateLe row.report.date de)
  else
    if start_date != some "" then
      match strptimeYMD start_date with
      | .error err => .error err
      | .ok ds =>
          let rows1 := rows.filter fun row => dateLe ds row.report.date
          if end_date != some "" then
            match strptimeYMD end_date with
            | .error err => .error err
            | .ok de =>
                .ok (rows1.filter fun row => dateLe row.report.date de)
          else .ok rows1
    else
      if end_date != some "" then
        match strptimeYMD end_date with
        | .error err => .error err
        | .ok de => .ok (rows.filter fun row => dateLe row.report.date de)
      else .ok rows

/-- Work filter of get_reports_in_interval, attached whenever the argument
differs from the sentinel 0.  A None argument renders as work_id IS NULL,
which no row satisfies since the column is non-nullable (modelled from the
spec: work_id is a required field). -/
def workIdMatches (work_id : Option Nat) (row : IntervalRow) : Bool :=
  match work_id with
  | some n => row.report.work_id == n
  | none => false

/-- Operator filter of get_reports_in_interval, same sentinel convention
as the work filter; operator_id is likewise non-nullable. -/
def operatorIdMatches (operator_id : Option Nat) (row : IntervalRow) : Bool :=
  match operator_id with
  | some n => row.report.operator_id == n
  | none => false

/-- Embedding of crud.get_reports_in_interval: the inner-joined base
query, the two sentinel-guarded id filters, then date-range filtering
(raising on unparsable bounds). -/
def get_reports_in_interval (db : DB) (start_date end_date : Option String)
    (work_id operator_id : Option Nat) : Except Failure (List IntervalRow) :=
  let rows := intervalBase db
  let rows :=
    if work_id != some 0 then rows.filter (workIdMatches work_id) else rows
  let rows :=
    if operator_id != some 0 then rows.filter (operatorIdMatches operator_id)
    else rows
  intervalDateFilter start_date end_date rows

/-! ### Mutation layer -/

/-- Result of edit_report: either the updated Report row, or the weak
failure value (a dict with detail "Errore" paired with 400) returned when
the Report id is absent. -/
inductive EditReportResult where
  | ok : Report → EditReportResult
  | err400 : EditReportResult
deriving DecidableEq, Repr

/-- Field overwrites performed by edit_report on the loaded row: every
mutable business field is taken from the payload and operator_id is forced
to the acting user; id and date_created are not assigned. -/
def applyEdit (r : Report) (rc : ReportCreate) (user_id : Nat) : Report :=
  { r with
    type := rc.type, date := rc.date,
    intervention_duration := rc.intervention_duration,
    intervention_type := rc.intervention_type,
    intervention_location := rc.intervention_location,
    work_id := rc.work_id, supervisor := rc.supervisor,
    description := rc.description, notes := rc.notes,
    trip_kms := rc.trip_kms, cost := rc.cost, operator_id := user_id }

/-- Embedding of crud.edit_report: load the first Report with the given
id; when present overwrite its fields in place and return it, otherwise
return the weak failure value and leave the store unchanged. -/
def edit_report (db : DB) (report_id : Nat) (rc : ReportCreate)
    (user_id : Nat) : EditReportResult × DB :=
  match db.reports.find? (fun r => r.id == report_id) with
  | some r =>
      (.ok (applyEdit r rc user_id),
        { db with
          reports := updateFirst (fun x => x.id == report_id)
            (fun x => applyEdit x rc user_id) db.reports })
  | none => (.err400, db)

/-- Embedding of crud.create_report: empty-string trip_kms and cost are
replaced by the string 0.0, then one new Report row is appended with the
acting user as operator and a fresh creation timestamp (the generated
primary key and the current time are passed explicitly). -/
def create_report (db : DB) (rc : ReportCreate) (user_id : Nat)
    (now : Date) (new_id : Nat) : DB :=
  let rc := if rc.trip_kms == "" then { rc with trip_kms := "0.0" } else rc
  let rc := if rc.cost == "" then { rc with cost := "0.0" } else rc
  { db with
    reports := db.reports ++
      [{ id := new_id, date := rc.date, date_created := now,
         intervention_duration := rc.intervention_duration,
         intervention_type := rc.intervention_type,
         intervention_location := rc.intervention_location,
         description := rc.description, supervisor := rc.supervisor,
         notes := rc.notes, trip_kms := rc.trip_kms, cost := rc.cost,
         type := rc.type, work_id := rc.work_id,
         operator_id := user_id }] }

/-! ### Integrity layer (deletion) -/

/-- Embedding of crud.delete_user.  The row is loaded, then the guard
user_id == 1 or user_id == current_user_id or user.role == admin is
evaluated with Python short-circuiting: the role access on a missing row
raises AttributeError, so the 404 branch below it is unreachable. -/
def delete_user (db : DB) (user_id current_user_id : Nat) :
    Except Failure DB :=
  let user := db.users.find? (fun u => u.id == user_id)
  if user_id = 1 ∨ user_id = current_user_id then
    .error (.http 403 "Non puoi eliminare questo utente")
  else
    match user with
    | none => .error .attributeError
    | some u =>
        if u.role = "admin" then
          .error (.http 403 "Non puoi eliminare questo utente")
        else
          .ok { db with
                users := db.users.eraseP (fun x => x.id == user_id) }

/-- Embedding of crud.delete_client: the dependency probe looks only for a
Commission with this client_id; 404 when the Client is absent, 400 when a
Commission refers to it, otherwise the row is deleted. -/
def delete_client (db : DB) (client_id : Nat) : Except Failure DB :=
  let client := db.clients.find? (fun c => c.id == client_id)
  let dep := db.commissions.find? (fun c => c.client_id == client_id)
  match client with
  | none => .error (.http 404 "Cliente non trovato")
  | some _ =>
      match dep with
      | some _ => .error (.http 400 "Non puoi eliminare questo cliente")
      | none =>
          .ok { db with
                clients := db.clients.eraseP (fun x => x.id == client_id) }

/-- Embedding of crud.delete_commission: the dependency probe looks for a
Report with work_id equal to this id and type commission. -/
def delete_commission (db : DB) (commission_id : Nat) : Except Failure DB :=
  let commission := db.commissions.find? (fun c => c.id == commission_id)
  let dep := db.reports.find?
    (fun r => r.work_id == commission_id && r.type == "commission")
  match commission with
  | none => .error (.http 404 "Commessa non trovata")
  | some _ =>
      match dep with
      | some _ => .error (.http 400 "Non puoi eliminare questa commessa")
      | none =>
          .ok { db with
                commissions :=
                  db.commissions.eraseP (fun x => x.id == commission_id) }

/-- Embedding of crud.delete_machine: the dependency probe looks for a
Report with work_id equal to this id and type machine. -/
def delete_machine (db : DB) (machine_id : Nat) : Except Failure DB :=
  let machine := db.machines.find? (fun m => m.id == machine_id)
  let dep := db.reports.find?
    (fun r => r.work_id == machine_id && r.type == "machine")
  match machine with
  | none => .error (.http 404 "Macchina non trovata")
  | some _ =>
      match dep with
      | some _ => .error (.http 400 "Non puoi eliminare questa macchina")
      | none =>
          .ok { db with
                machines := db.machines.eraseP (fun x => x.id == machine_id) }

/-- Embedding of crud.delete_plant: the not-found check precedes the
dependency probe (any Machine with this plant_id). -/
def delete_plant (db : DB) (plant_id : Nat) : Except Failure DB :=
  match db.plants.find? (fun p => p.id == plant_id) with
  | none => .error (.http 404 "Stabilimento non trovato")
  | some _ =>
      match db.machines.find? (fun m => m.plant_id == plant_id) with
      | some _ => .error (.http 400 "Non puoi eliminare questo stabilimento")
      | none =>
          .ok { db with
                plants := db.plants.eraseP (fun x => x.id == plant_id) }

/-! ### Concrete fixtures -/

/-- Sample client. -/
def exClient : Client :=
  ⟨1, "ACME", "Via Roma 1", "Milano", "MI", "20100", "acme@example.com",
    "025551", "Anna", ⟨2022, 5, 1⟩⟩

/-- Sample plant owned by the sample client. -/
def exPlant : Plant :=
  ⟨1, "Stabilimento Nord", "Via Po 2", "Torino", "TO", "10100",
    "nord@example.com", "0115552", "Bruno", 1, ⟨2022, 6, 1⟩⟩

/-- Sample machine sited in the sample plant; its id 7 coincides with the
sample commission id. -/
def exMachine : Machine :=
  ⟨7, "Pressa", "M7", "ACME", "X1", "SN7", 2020, "CC1",
    "pressa idraulica", false, 1, ⟨2022, 7, 1⟩⟩

/-- Sample commission owned by the sample client. -/
def exCommission : Commission :=
  ⟨7, "C7", "revamping", "on", 1, ⟨2022, 8, 1⟩⟩

/-- Sample admin user, id 1. -/
def exAdmin : User :=
  ⟨1, "Anna", "Bianchi", "anna@example.com", "025553", "anna", "admin",
    "tmp1", "hash1"⟩

/-- Sample plain user, id 2. -/
def exOperator : User :=
  ⟨2, "Mario", "Rossi", "mario@example.com", "025554", "mario", "user",
    "tmp2", "hash2"⟩

/-- Sample machine-typed report filed by the plain user against the
sample machine. -/
def exReportMachine : Report :=
  ⟨1, ⟨2024, 1, 15⟩, ⟨2024, 1, 15⟩, "2h", "riparazione", "sede",
    "guasto pressa", "Capo", "", "12.5", "100", "machine", 7, 2⟩

/-- Sample commission-typed report filed by the plain user against the
sample commission. -/
def exReportCommission : Report :=
  ⟨2, ⟨2023, 2, 10⟩, ⟨2023, 2, 10⟩, "3h", "montaggio", "cliente",
    "installazione", "Capo", "", "0.0", "50", "commission", 7, 2⟩

/-- Sample store combining all fixtures. -/
def exDB : DB :=
  ⟨[exClient], [exPlant], [exMachine], [exCommission],
    [exAdmin, exOperator], [exReportMachine, exReportCommission]⟩

/-- Store holding one client that is referenced by a plant and by no
commission. -/
def exDBClientPlant : DB :=
  ⟨[exClient], [exPlant], [], [], [], []⟩

/-- Sample edit payload. -/
def exEditPayload : ReportCreate :=
  ⟨"commission", ⟨2024, 3, 5⟩, "5h", "collaudo", "cliente", 7, "Capo2",
    "collaudo finale", "nota", "30.5", "200"⟩

/-- Row produced by the interval query for the machine-typed sample
report, joined to the commission whose id its work_id happens to equal. -/
def exIntervalMachineRow : IntervalRow :=
  ⟨exReportMachine, "revamping", "C7", "ACME", "Mario", "Rossi"⟩

/-- Row produced by the interval query for the commission-typed sample
report. -/
def exIntervalCommissionRow : IntervalRow :=
  ⟨exReportCommission, "revamping", "C7", "ACME", "Mario", "Rossi"⟩

/-! ### Lemmas about the list machinery -/

theorem mem_innerJoin {xs : List α} {ys : List β} {p : α → β → Bool}
    {x : α} {y : β} (h : (x, y) ∈ innerJoin xs ys p) :
    x ∈ xs ∧ y ∈ ys ∧ p x y = true := by
  rcases List.mem_flatMap.mp h with ⟨a, ha, hmem⟩
  rcases List.mem_map.mp hmem with ⟨b, hb, heq⟩
  cases heq
  rcases List.mem_filter.mp hb with ⟨hby, hpb⟩
  exact ⟨ha, hby, hpb⟩

theorem mem_leftJoin_fst {xs : List α} {ys : List β} {p : α → β → Bool}
    {z : α × Option β} (h : z ∈ leftJoin xs ys p) : z.1 ∈ xs := by
  rcases List.mem_flatMap.mp h with ⟨a, ha, hmem⟩
  dsimp only [leftJoin] at hmem
  split at hmem
  · rcases List.mem_singleton.mp hmem with rfl
    exact ha
  · rcases List.mem_map.mp hmem with ⟨b, _, heq⟩
    cases heq
    exact ha

theorem mem_leftJoin_some {xs : List α} {ys : List β} {p : α → β → Bool}
    {x : α} {y : β} (h : (x, some y) ∈ leftJoin xs ys p) :
    x ∈ xs ∧ y ∈ ys ∧ p x y = true := by
  rcases List.mem_flatMap.mp h with ⟨a, ha, hmem⟩
  dsimp only [leftJoin] at hmem
  split at hmem
  · rcases List.mem_singleton.mp hmem with heq
    cases heq
  · rcases List.mem_map.mp hmem with ⟨b, hb, heq⟩
    cases heq
    rcases List.mem_filter.mp hb with ⟨hby, hpb⟩
    exact ⟨ha, hby, hpb⟩

theorem find?_updateFirst {p : α → Bool} {f : α → α} {l : List α} {a : α}
    (h : l.find? p = some a) (hfa : p (f a) = true) :
    (updateFirst p f l).find? p = some (f a) := by
  induction l with
  | nil => simp at h
  | cons x xs ih =>
      by_cases hx : p x = true
      · rw [List.find?_cons_of_pos _ hx] at h
        cases h
        simp only [updateFirst, if_pos hx]
        exact List.find?_cons_of_pos _ hfa
      · have hx' : p x = false := by
          cases hpx : p x
          · rfl
          · exact absurd hpx hx
        rw [List.find?_cons_of_neg _ (by simp [hx'])] at h
        simp only [updateFirst, hx']
        rw [if_neg Bool.false_ne_true]
        rw [List.find?_cons_of_neg _ (by simp [hx'])]
        exact ih h

theorem mem_insertByDateDesc {key : α → Date} {x a : α} {l : List α} :
    a ∈ insertByDateDesc key x l ↔ a = x ∨ a ∈ l := by
  induction l with
  | nil => simp [insertByDateDesc]
  | cons y ys ih =>
      simp only [insertByDateDesc]
      split
      · simp [List.mem_cons]
      · simp only [List.mem_cons, ih]
        tauto

theorem mem_sortByDateDesc {key : α → Date} {a : α} {l : List α} :
    a ∈ sortByDateDesc key l ↔ a ∈ l := by
  induction l with
  | nil => simp [sortByDateDesc]
  | cons x xs ih =>
      simp only [sortByDateDesc, mem_insertByDateDesc, ih, List.mem_cons]

theorem mem_insertStr {x a : String} {l : List String} :
    a ∈ insertStr x l ↔ a = x ∨ a ∈ l := by
  induction l with
  | nil => simp [insertStr]
  | cons y ys ih =>
      simp only [insertStr]
      split
      · rename_i hxy
        subst hxy
        simp only [List.mem_cons]
        tauto
      · split
        · simp [List.mem_cons]
        · simp only [List.mem_cons, ih]
          tauto

theorem mem_sortedDedup {a : String} {l : List String} :
    a ∈ sortedDedup l ↔ a ∈ l := by
  induction l with
  | nil => simp [sortedDedup]
  | cons x xs ih =>
      simp only [sortedDedup, List.foldr_cons] at *
      rw [mem_insertStr, ih, List.mem_cons]

theorem pairwise_insertStr {x : String} {l : List String}
    (h : l.Pairwise (· < ·)) : (insertStr x l).Pairwise (· < ·) := by
  induction l with
  | nil => simp [insertStr]
  | cons y ys ih =>
      rcases List.pairwise_cons.mp h with ⟨hy, hys⟩
      simp only [insertStr]
      split
      · exact h
      · rename_i hne
        split
        · rename_i hlt
          refine List.pairwise_cons.mpr ⟨?_, h⟩
          intro b hb
          rcases List.mem_cons.mp hb with rfl | hbys
          · exact hlt
          · exact lt_trans hlt (hy b hbys)
        · rename_i hnlt
          have hyx : y < x := by
            rcases lt_trichotomy x y with h1 | h1 | h1
            · exact absurd h1 hnlt
            · exact absurd h1 hne
            · exact h1
          refine List.pairwise_cons.mpr ⟨?_, ih hys⟩
          intro b hb
          rcases mem_insertStr.mp hb with rfl | hbys
          · exact hyx
          · exact hy b hbys

theorem pairwise_sortedDedup {l : List String} :
    (sortedDedup l).Pairwise (· < ·) := by
  induction l with
  | nil => simp [sortedDedup]
  | cons x xs ih =>
      simp only [sortedDedup, List.foldr_cons] at *
      exact pairwise_insertStr ih

theorem intervalDateFilter_start_none {ed : Option String}
    {rows : List IntervalRow} :
    intervalDateFilter none ed rows = .error .typeError := by
  by_cases hed : ed = some ""
  · subst hed
    simp [intervalDateFilter, strptimeYMD]
  · have hb : (ed != some "") = true := by
      simpa using hed
    simp [intervalDateFilter, strptimeYMD, hb]

theorem intervalDateFilter_end_none {rows : List IntervalRow} :
    intervalDateFilter (some "") none rows = .error .typeError := by
  simp [intervalDateFilter, strptimeYMD]

theorem intervalDateFilter_both_empty {rows : List IntervalRow} :
    intervalDateFilter (some "") (some "") rows = .ok rows := by
  simp [intervalDateFilter]

theorem intervalDateFilter_ok_subset {sd ed : Option String}
    {rows out : List IntervalRow}
    (h : intervalDateFilter sd ed rows = .ok out) : out ⊆ rows := by
  simp only [intervalDateFilter] at h
  split at h
  · rcases hs : strptimeYMD sd with _ | ds <;> rw [hs] at h
    · cases h
    · rcases he : strptimeYMD ed with _ | de <;> rw [he] at h
      · cases h
      · cases h
        exact List.filter_subset' _
  · by_cases hsb : (sd != some "") = true
    · rw [if_pos hsb] at h
      rcases hs : strptimeYMD sd with _ | ds
      · rw [hs] at h
        cases h
      · rw [hs] at h
        simp only [] at h
        by_cases heb : (ed != some "") = true
        · rw [if_pos heb] at h
          rcases he : strptimeYMD ed with _ | de
          · rw [he] at h
            cases h
          · rw [he] at h
            cases h
            intro a ha
            exact List.filter_subset' _ (List.filter_subset' _ ha)
        · rw [if_neg heb] at h
          cases h
          exact List.filter_subset' _
    · rw [if_neg hsb] at h
      by_cases heb : (ed != some "") = true
      · rw [if_pos heb] at h
        rcases he : strptimeYMD ed with _ | de
        · rw [he] at h
          cases h
        · rw [he] at h
          cases h
          exact List.filter_subset' _
      · rw [if_neg heb] at h
        cases h
        exact fun a ha => ha

theorem filter_workIdMatches_none (l : List IntervalRow) :
    l.filter (workIdMatches none) = [] := by
  induction l with
  | nil => rfl
  | cons x xs ih => simp [List.filter_cons, workIdMatches, ih]

theorem mem_of_mem_iteFilter {b : Bool} {l : List γ} {p : γ → Bool} {a : γ}
    (h : a ∈ (if b = true then l.filter p else l)) : a ∈ l := by
  split at h
  · exact (List.mem_filter.mp h).1
  · exact h

theorem mem_intervalBase_commission {db : DB} {row : IntervalRow}
    (h : row ∈ intervalBase db) :
    ∃ c, c ∈ db.commissions ∧ row.report.work_id = c.id := by
  simp only [intervalBase] at h
  obtain ⟨t, ht, rfl⟩ := List.mem_map.mp h
  obtain ⟨t2, u⟩ := t
  obtain ⟨ht2, hu, hcond3⟩ := mem_innerJoin ht
  obtain ⟨t1, cl⟩ := t2
  obtain ⟨ht1, hcl, hcond2⟩ := mem_innerJoin ht2
  obtain ⟨r, c⟩ := t1
  obtain ⟨hr, hc, hcond1⟩ := mem_innerJoin ht1
  exact ⟨c, hc, by simpa using hcond1⟩

/-! ### Theorems -/

/-- Claim C2, counterexample: on the sample store the machine-typed
report, whose work_id 7 numerically equals the commission id 7, is
returned by the unfiltered interval query, so not every returned Report
has type commission. -/
theorem c2_counterexample :
    get_reports_in_interval exDB (some "") (some "") (some 0) (some 0) =
      .ok [exIntervalMachineRow, exIntervalCommissionRow] ∧
    exIntervalMachineRow.report.type = "machine" := ⟨rfl, rfl⟩

/-- Claim C2 (amended): every Report returned by the interval query has a
work_id equal to the id of some stored Commission — the join is on
work_id alone and never consults the type discriminator, so machine-typed
Reports do appear whenever their work_id coincides with a Commission
id. -/
theorem c2_amended_interval_joins_on_work_id (db : DB)
    (sd ed : Option String) (wid op : Option Nat)
    (rows : List IntervalRow)
    (h : get_reports_in_interval db sd ed wid op = .ok rows) :
    ∀ row ∈ rows, ∃ c, c ∈ db.commissions ∧ row.report.work_id = c.id := by
  intro row hrow
  have hsub : rows ⊆ intervalBase db := by
    simp only [get_reports_in_interval] at h
    intro a ha
    exact mem_of_mem_iteFilter
      (mem_of_mem_iteFilter (intervalDateFilter_ok_subset h ha))
  exact mem_intervalBase_commission (hsub hrow)

/-- Claim C2, witness: the machine-typed row returned on the sample store
indeed carries a work_id matching a stored Commission. -/
theorem c2_witness :
    ∃ c, c ∈ exDB.commissions ∧
      exIntervalMachineRow.report.work_id = c.id :=
  c2_amended_interval_joins_on_work_id exDB (some "") (some "") (some 0)
    (some 0) [exIntervalMachineRow, exIntervalCommissionRow] rfl
    exIntervalMachineRow (by decide)

/-- Claim C3, counterexample: a Client referenced only by a Plant is not
protected — delete_client succeeds and removes the row, although the claim
requires a Conflict failure for the Client-referenced-by-Plant edge. -/
theorem c3_counterexample :
    exPlant ∈ exDBClientPlant.plants ∧ exPlant.client_id = exClient.id ∧
    exClient ∈ exDBClientPlant.clients ∧
    delete_client exDBClientPlant exClient.id =
      Except.ok ⟨[], [exPlant], [], [], [], []⟩ :=
  ⟨by decide, by decide, by decide, rfl⟩

/-- Claim C3 (amended): deleting a referenced entity fails with the 400
conflict error and leaves the store unchanged for the edges the code
checks — Client referenced by a Commission, Plant referenced by a Machine,
Commission referenced by a commission-typed Report, Machine referenced by
a machine-typed Report; the Client-referenced-by-Plant edge is not
checked, so such a Client is deleted. -/
theorem c3_amended_referential_integrity (db : DB) :
    (∀ c, c ∈ db.clients →
      (∃ k, k ∈ db.commissions ∧ k.client_id = c.id) →
      delete_client db c.id =
        .error (.http 400 "Non puoi eliminare questo cliente")) ∧
    (∀ p, p ∈ db.plants →
      (∃ m, m ∈ db.machines ∧ m.plant_id = p.id) →
      delete_plant db p.id =
        .error (.http 400 "Non puoi eliminare questo stabilimento")) ∧
    (∀ k, k ∈ db.commissions →
      (∃ r, r ∈ db.reports ∧ r.work_id = k.id ∧ r.type = "commission") →
      delete_commission db k.id =
        .error (.http 400 "Non puoi eliminare questa commessa")) ∧
    (∀ m, m ∈ db.machines →
      (∃ r, r ∈ db.reports ∧ r.work_id = m.id ∧ r.type = "machine") →
      delete_machine db m.id =
        .error (.http 400 "Non puoi eliminare questa macchina")) := by
  refine ⟨?_, ?_, ?_, ?_⟩
  · intro c hc hdep
    obtain ⟨c0, hc0⟩ := Option.isSome_iff_exists.mp
      (List.find?_isSome.mpr ⟨c, hc, by simp⟩ :
        (db.clients.find? (fun x => x.id == c.id)).isSome)
    obtain ⟨k, hk, hkc⟩ := hdep
    obtain ⟨k0, hk0⟩ := Option.isSome_iff_exists.mp
      (List.find?_isSome.mpr ⟨k, hk, by simp [hkc]⟩ :
        (db.commissions.find? (fun x => x.client_id == c.id)).isSome)
    simp [delete_client, hc0, hk0]
  · intro p hp hdep
    obtain ⟨p0, hp0⟩ := Option.isSome_iff_exists.mp
      (List.find?_isSome.mpr ⟨p, hp, by simp⟩ :
        (db.plants.find? (fun x => x.id == p.id)).isSome)
    obtain ⟨m, hm, hmp⟩ := hdep
    obtain ⟨m0, hm0⟩ := Option.isSome_iff_exists.mp
      (List.find?_isSome.mpr ⟨m, hm, by simp [hmp]⟩ :
        (db.machines.find? (fun x => x.plant_id == p.id)).isSome)
    simp [delete_plant, hp0, hm0]
  · intro k hk hdep
    obtain ⟨k0, hk0⟩ := Option.isSome_iff_exists.mp
      (List.find?_isSome.mpr ⟨k, hk, by simp⟩ :
        (db.commissions.find? (fun x => x.id == k.id)).isSome)
    obtain ⟨r, hr, hrw, hrt⟩ := hdep
    obtain ⟨r0, hr0⟩ := Option.isSome_iff_exists.mp
      (List.find?_isSome.mpr ⟨r, hr, by simp [hrw, hrt]⟩ :
        (db.reports.find?
          (fun r => r.work_id == k.id && r.type == "commission")).isSome)
    simp [delete_commission, hk0, hr0]
  · intro m hm hdep
    obtain ⟨m0, hm0⟩ := Option.isSome_iff_exists.mp
      (List.find?_isSome.mpr ⟨m, hm, by simp⟩ :
        (db.machines.find? (fun x => x.id == m.id)).isSome)
    obtain ⟨r, hr, hrw, hrt⟩ := hdep
    obtain ⟨r0, hr0⟩ := Option.isSome_iff_exists.mp
      (List.find?_isSome.mpr ⟨r, hr, by simp [hrw, hrt]⟩ :
        (db.reports.find?
          (fun r => r.work_id == m.id && r.type == "machine")).isSome)
    simp [delete_machine, hm0, hr0]

/-- Claim C3, witness: on the sample store the client owning a commission
cannot be deleted. -/
theorem c3_witness :
    delete_client exDB exClient.id =
      .error (.http 400 "Non puoi eliminare questo cliente") :=
  (c3_amended_referential_integrity exDB).1 exClient (by decide)
    ⟨exCommission, by decide, by decide⟩

/-- Claim C4: delete_user answers the 403 forbidden error whenever the
target id is 1, or the target id equals the acting user id (both checked
before the row is consulted, hence independent of existence), or the
target row exists with the admin role; in every such case the call fails
before any row is deleted. -/
theorem c4_delete_user_forbidden (db : DB) (target acting : Nat)
    (h : target = 1 ∨ target = acting ∨
      (∃ u, db.users.find? (fun x => x.id == target) = some u ∧
        u.role = "admin")) :
    delete_user db target acting =
      .error (.http 403 "Non puoi eliminare questo utente") := by
  simp only [delete_user]
  by_cases h12 : target = 1 ∨ target = acting
  · rw [if_pos h12]
  · rw [if_neg h12]
    rcases h with h1 | h2 | ⟨u, hu, hrole⟩
    · exact absurd (Or.inl h1) h12
    · exact absurd (Or.inr h2) h12
    · rw [hu]
      simp [hrole]

/-- Claim C4, witness: deleting the protected user id 1 on the sample
store is forbidden. -/
theorem c4_witness :
    delete_user exDB 1 2 =
      .error (.http 403 "Non puoi eliminare questo utente") :=
  c4_delete_user_forbidden exDB 1 2 (Or.inl rfl)

/-- Claim C5: for every store and every operator and work filter,
get_months returns a duplicate-free list that is strictly ascending in
lexicographic string order — the order of the MM/YYYY strings themselves,
not the chronological order of the months they denote. -/
theorem c5_months_sorted_strings (db : DB) (user_id work_id : Option Nat) :
    (get_months db user_id work_id).Pairwise (· < ·) ∧
    (get_months db user_id work_id).Nodup := by
  have hp : (get_months db user_id work_id).Pairwise (· < ·) := by
    simp only [get_months]
    exact pairwise_sortedDedup
  exact ⟨hp, hp.imp ne_of_lt⟩

/-- Claim C8: the declared defaults of the interval query are not a
no-filter call — a None work_id filters on work_id equal to null and
returns no rows (the column is non-nullable), while a None start or end
date reaches strptime and raises TypeError; only the sentinel 0 and the
exact empty string disable the respective filters. -/
theorem c8_interval_defaults_not_unfiltered (db : DB)
    (op wid : Option Nat) (ed : Option String) :
    get_reports_in_interval db (some "") (some "") none op = .ok [] ∧
    get_reports_in_interval db none ed wid op = .error .typeError ∧
    get_reports_in_interval db (some "") none wid op =
      .error .typeError := by
  refine ⟨?_, ?_, ?_⟩
  · simp only [get_reports_in_interval]
    rw [if_pos (by decide : ((none : Option Nat) != some 0) = true)]
    rw [filter_workIdMatches_none]
    by_cases hop : (op != some 0) = true
    · rw [if_pos hop, List.filter_nil]
      exact intervalDateFilter_both_empty
    · rw [if_neg hop]
      exact intervalDateFilter_both_empty
  · simp only [get_reports_in_interval]
    exact intervalDateFilter_start_none
  · simp only [get_reports_in_interval]
    exact intervalDateFilter_end_none

/-- Claim C6: when the Report id exists, edit_report returns the updated
row, forces its operator_id to the acting user id whatever operator
created it, and the row stored under that id afterwards carries the
acting user id as operator_id. -/
theorem c6_edit_report_reassigns_operator (db : DB) (report_id : Nat)
    (rc : ReportCreate) (acting : Nat) (r : Report)
    (h : db.reports.find? (fun x => x.id == report_id) = some r) :
    (edit_report db report_id rc acting).1 =
      .ok (applyEdit r rc acting) ∧
    (applyEdit r rc acting).operator_id = acting ∧
    ((edit_report db report_id rc acting).2.reports.find?
        (fun x => x.id == report_id)) = some (applyEdit r rc acting) := by
  have hid0 := List.find?_some h
  have hid : ((applyEdit r rc acting).id == report_id) = true := hid0
  refine ⟨by simp [edit_report, h], rfl, ?_⟩
  simp only [edit_report, h]
  exact find?_updateFirst h hid

/-- Claim C6, witness: on the sample store, editing report 1 (created by
user 2) as user 9 stores user 9 as its operator. -/
theorem c6_witness :
    (edit_report exDB 1 exEditPayload 9).1 =
      .ok (applyEdit exReportMachine exEditPayload 9) ∧
    (applyEdit exReportMachine exEditPayload 9).operator_id = 9 ∧
    ((edit_report exDB 1 exEditPayload 9).2.reports.find?
        (fun x => x.id == 1)) =
      some (applyEdit exReportMachine exEditPayload 9) :=
  c6_edit_report_reassigns_operator exDB 1 exEditPayload 9
    exReportMachine (by decide)

/-- Claim C10: when the Report id exists, the row stored after
edit_report keeps its id and its creation timestamp, while every business
field is taken from the payload and operator_id from the acting user. -/
theorem c10_edit_report_frame (db : DB) (report_id : Nat)
    (rc : ReportCreate) (acting : Nat) (r : Report)
    (h : db.reports.find? (fun x => x.id == report_id) = some r) :
    ∃ r2, ((edit_report db report_id rc acting).2.reports.find?
        (fun x => x.id == report_id)) = some r2 ∧
      r2.id = r.id ∧ r2.date_created = r.date_created ∧
      r2.type = rc.type ∧ r2.date = rc.date ∧
      r2.intervention_duration = rc.intervention_duration ∧
      r2.intervention_type = rc.intervention_type ∧
      r2.intervention_location = rc.intervention_location ∧
      r2.work_id = rc.work_id ∧ r2.supervisor = rc.supervisor ∧
      r2.description = rc.description ∧ r2.notes = rc.notes ∧
      r2.trip_kms = rc.trip_kms ∧ r2.cost = rc.cost ∧
      r2.operator_id = acting := by
  have hid0 := List.find?_some h
  have hid : ((applyEdit r rc acting).id == report_id) = true := hid0
  refine ⟨applyEdit r rc acting, ?_, rfl, rfl, rfl, rfl, rfl, rfl, rfl,
    rfl, rfl, rfl, rfl, rfl, rfl, rfl⟩
  simp only [edit_report, h]
  exact find?_updateFirst h hid

/-- Claim C10, witness: editing report 2 of the sample store as user 4
keeps id 2 and the original creation date while overwriting the business
fields. -/
theorem c10_witness :
    ∃ r2, ((edit_report exDB 2 exEditPayload 4).2.reports.find?
        (fun x => x.id == 2)) = some r2 ∧
      r2.id = exReportCommission.id ∧
      r2.date_created = exReportCommission.date_created ∧
      r2.type = exEditPayload.type ∧ r2.date = exEditPayload.date ∧
      r2.intervention_duration = exEditPayload.intervention_duration ∧
      r2.intervention_type = exEditPayload.intervention_type ∧
      r2.intervention_location = exEditPayload.intervention_location ∧
      r2.work_id = exEditPayload.work_id ∧
      r2.supervisor = exEditPayload.supervisor ∧
      r2.description = exEditPayload.description ∧
      r2.notes = exEditPayload.notes ∧
      r2.trip_kms = exEditPayload.trip_kms ∧
      r2.cost = exEditPayload.cost ∧
      r2.operator_id = 4 :=
  c10_edit_report_frame exDB 2 exEditPayload 4 exReportCommission
    (by decide)

/-- Claim C9: the work filter of get_months matches on work_id alone and
never consults the type discriminator — every stored Report whose work_id
equals the (non-zero) filter value contributes its month whatever its
type, and every returned month comes from some Report with that work_id,
of either type. -/
theorem c9_months_work_filter_ignores_type (db : DB) (w : Nat)
    (hw : w ≠ 0) (r : Report) (hr : r ∈ db.reports)
    (hwid : r.work_id = w) :
    fmtMonth r.date ∈ get_months db none (some w) ∧
    ∀ s ∈ get_months db none (some w),
      ∃ r2, r2 ∈ db.reports ∧ r2.work_id = w ∧ s = fmtMonth r2.date := by
  have htr : truthy (some w) = true := by simp [truthy, hw]
  have htn : truthy none = false := rfl
  constructor
  · simp only [get_months, htr, htn, Bool.false_eq_true, if_false, if_true]
    rw [mem_sortedDedup]
    refine List.mem_map.mpr ⟨r.date, ?_, rfl⟩
    rw [List.mem_dedup]
    exact List.mem_map.mpr
      ⟨r, List.mem_filter.mpr ⟨hr, by simp [hwid]⟩, rfl⟩
  · intro s hs
    simp only [get_months, htr, htn, Bool.false_eq_true, if_false,
      if_true] at hs
    rw [mem_sortedDedup] at hs
    obtain ⟨d, hd, rfl⟩ := List.mem_map.mp hs
    rw [List.mem_dedup] at hd
    obtain ⟨r2, hr2, rfl⟩ := List.mem_map.mp hd
    obtain ⟨hr2mem, hr2cond⟩ := List.mem_filter.mp hr2
    exact ⟨r2, hr2mem, by simpa using hr2cond, rfl⟩

/-- Claim C9, witness: on the sample store, filtering months by work id 7
(the id of the stored Commission) includes the month of the machine-typed
report whose work_id is 7. -/
theorem c9_witness :
    fmtMonth exReportMachine.date ∈ get_months exDB none (some 7) ∧
    ∀ s ∈ get_months exDB none (some 7),
      ∃ r2, r2 ∈ exDB.reports ∧ r2.work_id = 7 ∧ s = fmtMonth r2.date :=
  c9_months_work_filter_ignores_type exDB 7 (by decide) exReportMachine
    (by decide) rfl

/-- Claim C1: in list_reports, every returned machine-typed row resolves
its Client through the chain Machine to Plant to client_id, and a stored
machine-typed Report admitting no such chain (its Machine has no Plant
row, or its Plant has no Client row) is absent from the result, for every
value of the optional operator filter. -/
theorem c1_list_reports_machine_client_chain (db : DB)
    (user_id : Option Nat) :
    (∀ row, row ∈ get_reports db user_id →
      row.report.type = "machine" →
      ∃ m p, row.machine = some m ∧ row.plant = some p ∧
        m ∈ db.machines ∧ p ∈ db.plants ∧ row.client ∈ db.clients ∧
        row.report.work_id = m.id ∧ m.plant_id = p.id ∧
        p.client_id = row.client.id) ∧
    (∀ r, r ∈ db.reports → r.type = "machine" →
      (¬ ∃ m, m ∈ db.machines ∧ r.work_id = m.id ∧
        ∃ p, p ∈ db.plants ∧ m.plant_id = p.id ∧
          ∃ cl, cl ∈ db.clients ∧ p.client_id = cl.id) →
      ∀ row, row ∈ get_reports db user_id → row.report ≠ r) := by
  have hmain : ∀ row, row ∈ get_reports db user_id →
      row.report.type = "machine" →
      ∃ m p, row.machine = some m ∧ row.plant = some p ∧
        m ∈ db.machines ∧ p ∈ db.plants ∧ row.client ∈ db.clients ∧
        row.report.work_id = m.id ∧ m.plant_id = p.id ∧
        p.client_id = row.client.id := by
    intro row hrow hty
    simp only [get_reports] at hrow
    rw [mem_sortByDateDesc] at hrow
    have hrow2 := mem_of_mem_iteFilter hrow
    obtain ⟨t, ht, hteq⟩ := List.mem_map.mp hrow2
    obtain ⟨⟨⟨⟨⟨r, oc⟩, om⟩, u⟩, op⟩, cl⟩ := t
    subst hteq
    obtain ⟨ht4, hclmem, hclcond⟩ := mem_innerJoin ht
    have ht3 := mem_leftJoin_fst ht4
    obtain ⟨ht2, humem, hucond⟩ := mem_innerJoin ht3
    have hrc := mem_leftJoin_fst ht2
    have hty' : r.type = "machine" := hty
    cases oc with
    | some c =>
        obtain ⟨_, _, hcond⟩ := mem_leftJoin_some hrc
        rw [Bool.and_eq_true] at hcond
        have hcomm : r.type = "commission" := by simpa using hcond.1
        rw [hty'] at hcomm
        exact absurd hcomm (by decide)
    | none =>
        cases op with
        | none => simp [optTest] at hclcond
        | some p =>
            simp only [optTest, Bool.false_or, Bool.and_eq_true,
              beq_iff_eq] at hclcond
            obtain ⟨_, hpmem, hpcond⟩ := mem_leftJoin_some ht4
            cases om with
            | none => simp [optTest] at hpcond
            | some m =>
                simp only [Bool.and_eq_true, optTest,
                  beq_iff_eq] at hpcond
                obtain ⟨_, hmmem, hmcond⟩ := mem_leftJoin_some ht2
                simp only [Bool.and_eq_true, beq_iff_eq] at hmcond
                exact ⟨m, p, rfl, rfl, hmmem, hpmem, hclmem,
                  hmcond.2, hpcond.2, hclcond.1⟩
  refine ⟨hmain, ?_⟩
  intro r hr hty hchain row hrow heq
  obtain ⟨m, p, hm, hp, hmmem, hpmem, hclmem, hwork, hmp, hpcl⟩ :=
    hmain row hrow (by rw [heq]; exact hty)
  refine hchain ⟨m, hmmem, ?_, p, hpmem, hmp, row.client, hclmem, hpcl⟩
  rw [← heq]
  exact hwork

/-- Claim C1, witness: on the sample store the machine-typed report is
returned with its Client resolved through the sample machine and plant. -/
theorem c1_witness :
    ∃ m p,
      (⟨exReportMachine, none, some exMachine, exOperator, some exPlant,
        exClient⟩ : JoinedReport).machine = some m ∧
      (⟨exReportMachine, none, some exMachine, exOperator, some exPlant,
        exClient⟩ : JoinedReport).plant = some p ∧
      m ∈ exDB.machines ∧ p ∈ exDB.plants ∧
      (⟨exReportMachine, none, some exMachine, exOperator, some exPlant,
        exClient⟩ : JoinedReport).client ∈ exDB.clients ∧
      (⟨exReportMachine, none, some exMachine, exOperator, some exPlant,
        exClient⟩ : JoinedReport).report.work_id = m.id ∧
      m.plant_id = p.id ∧
      p.client_id =
        (⟨exReportMachine, none, some exMachine, exOperator, some exPlant,
          exClient⟩ : JoinedReport).client.id :=
  (c1_list_reports_machine_client_chain exDB none).1
    ⟨exReportMachine, none, some exMachine, exOperator, some exPlant,
      exClient⟩ (by decide) rfl

/-- Claim C7: create_report persists trip_kms and cost as the string 0.0
exactly when the incoming field is the empty string, and otherwise
persists them unchanged; the new row is appended to the store. -/
theorem c7_create_report_normalizes (db : DB) (rc : ReportCreate)
    (acting : Nat) (now : Date) (new_id : Nat) :
    ∃ r, (create_report db rc acting now new_id).reports =
        db.reports ++ [r] ∧
      r.trip_kms = (if rc.trip_kms = "" then "0.0" else rc.trip_kms) ∧
      r.cost = (if rc.cost = "" then "0.0" else rc.cost) := by
  simp only [create_report]
  refine ⟨_, rfl, ?_, ?_⟩
  · by_cases h : rc.trip_kms = "" <;> by_cases h2 : rc.cost = "" <;>
      simp [h, h2]
  · by_cases h : rc.trip_kms = "" <;> by_cases h2 : rc.cost = "" <;>
      simp [h, h2]

end Gestione
